import Mathlib

/-!
Verification development for the 7-Living-Magicks core: the canon adjacency
rule (`canon/canon.py`), the Gray Event model (`canon/gray_event.py`), the
compression/degeneracy metrics (`src/compression/metrics.py`) and the
execution-trace recorder (`src/engine/trace.py`).

Python integers are modelled as `Int` (or `Nat` where the source value is a
non-negative running counter), Python floats as exact rationals `ℚ`, Python
lists as `List`, fallible constructors (those that may raise `ValueError`) as
`Except String`.  The external zlib compressor is not part of the repository:
every metric that calls `zlib.compress` is parametrised by an arbitrary
compressed-size function `C : List Nat → Nat`, exactly mirroring the fact
that the source computes everything from `compress_size` alone.
-/

namespace Magicks

/-- Modelled from the spec: `canon/canon.json` is referenced by
`canon/canon.py` but absent from the sources; the spec fixes the adjacency
modulus `M = 7`. -/
def MODULUS : Int := 7

/-- Modelled from the spec: `canon/canon.json` is absent from the sources;
the spec fixes the set of legal deltas to `{1, 6}`. -/
def VALID_DELTAS : List Int := [1, 6]

/-- `canon.is_adjacent`: the transition `from_index → to_index` is legal iff
`(to_index - from_index) mod 7 ∈ VALID_DELTAS`.  Python `%` on a positive
modulus agrees with `Int.emod`. -/
def is_adjacent (from_index to_index : Int) : Bool :=
  let delta := (to_index - from_index) % MODULUS
  VALID_DELTAS.contains delta

/-- One violation descriptor produced by `canon.validate_sequence`
(the dict with keys `type`, `index`, `from`, `to`, `delta`, `reason`). -/
structure Violation where
  type : String
  index : Nat
  from_idx : Int
  to_idx : Int
  delta : Int
  reason : String
  deriving Repr, DecidableEq

/-- `canon.validate_sequence`: walk every adjacent pair, collect a violation
descriptor for each illegal one, and report validity as `len(violations) == 0`.
Total on all of `List Int` — out-of-range indices never raise. -/
def validate_sequence (sequence : List Int) : Bool × List Violation :=
  let violations := (List.range (sequence.length - 1)).filterMap fun i =>
    let from_idx := sequence.getD i 0
    let to_idx := sequence.getD (i + 1) 0
    if is_adjacent from_idx to_idx then none
    else
      let delta := (to_idx - from_idx) % MODULUS
      some { type := "adjacency_violation", index := i, from_idx := from_idx,
             to_idx := to_idx, delta := delta,
             reason := s!"Illegal jump: delta {delta} not in [1, 6]" }
  (violations.length == 0, violations)

/-- The violation list exactly as the claim describes it: one descriptor for
each position `i` whose pair has `(seq[i+1] - seq[i]) mod 7 ∉ {1, 6}`, in
order of `i`, carrying `i`, `from`, `to`, the delta, and a reason string. -/
def claimed_violations (sequence : List Int) : List Violation :=
  ((List.range (sequence.length - 1)).filter fun i =>
      decide (((sequence.getD (i + 1) 0 - sequence.getD i 0) % 7 ≠ 1) ∧
              ((sequence.getD (i + 1) 0 - sequence.getD i 0) % 7 ≠ 6))).map fun i =>
    let from_idx := sequence.getD i 0
    let to_idx := sequence.getD (i + 1) 0
    let delta := (to_idx - from_idx) % 7
    { type := "adjacency_violation", index := i, from_idx := from_idx,
      to_idx := to_idx, delta := delta,
      reason := s!"Illegal jump: delta {delta} not in [1, 6]" }

lemma filterMap_eq_filter_map {α β : Type} (f : α → Option β) (p : α → Bool) (g : α → β)
    (hnone : ∀ i, p i = false → f i = none)
    (hsome : ∀ i, p i = true → f i = some (g i)) :
    ∀ l : List α, l.filterMap f = (l.filter p).map g := by
  intro l
  induction l with
  | nil => rfl
  | cons a l ih =>
    rcases Bool.eq_false_or_eq_true (p a) with h | h
    · simp [List.filterMap_cons, List.filter_cons, h, hsome a h, ih]
    · simp [List.filterMap_cons, List.filter_cons, h, hnone a h, ih]

lemma is_adjacent_iff (a b : Int) :
    is_adjacent a b = true ↔ ((b - a) % 7 = 1 ∨ (b - a) % 7 = 6) := by
  simp [is_adjacent, MODULUS, VALID_DELTAS, List.contains_cons]

/-- C3: for indices in `0..6`, `is_adjacent from to` holds iff
`(to - from) mod 7 ∈ {1, 6}`; in particular every color is adjacent to its
successor and predecessor mod 7 and never to itself. -/
theorem claim_C3_is_adjacent :
    (∀ a b : Fin 7,
        (is_adjacent (a : Int) (b : Int) = true ↔
          (((b : Int) - (a : Int)) % 7 = 1 ∨ ((b : Int) - (a : Int)) % 7 = 6))) ∧
    (∀ c : Fin 7,
        is_adjacent (c : Int) (((c : Int) + 1) % 7) = true ∧
        is_adjacent (c : Int) (((c : Int) - 1) % 7) = true ∧
        is_adjacent (c : Int) (c : Int) = false) := by
  constructor
  · intro a b
    exact is_adjacent_iff (a : Int) (b : Int)
  · intro c
    fin_cases c <;> refine ⟨by decide, by decide, by decide⟩

/-- C1: `validate_sequence` returns exactly one violation descriptor for each
adjacent pair whose delta mod 7 lies outside `{1, 6}`, in order of position,
each carrying the position, the two states, the delta and a reason string;
`is_valid` holds iff the violation list is empty, empty and one-element
sequences are always valid, and the function is total on all of `List Int`
(it never raises, indices outside `0..6` included). -/
theorem claim_C1_validate_sequence (seq : List Int) :
    (validate_sequence seq).2 = claimed_violations seq ∧
    ((validate_sequence seq).1 = true ↔ (validate_sequence seq).2 = []) ∧
    validate_sequence ([] : List Int) = (true, []) ∧
    (∀ x : Int, validate_sequence [x] = (true, [])) := by
  refine ⟨?_, ?_, rfl, fun x => rfl⟩
  · show (validate_sequence seq).2 = claimed_violations seq
    simp only [validate_sequence, claimed_violations]
    refine filterMap_eq_filter_map _ _ _ ?_ ?_ _
    · intro i h
      simp only [decide_eq_false_iff_not, not_and, not_not] at h
      have hadj : is_adjacent (seq.getD i 0) (seq.getD (i + 1) 0) = true := by
        rw [is_adjacent_iff]
        by_cases h1 : (seq.getD (i + 1) 0 - seq.getD i 0) % 7 = 1
        · exact Or.inl h1
        · exact Or.inr (h h1)
      simp only [hadj, if_true]
    · intro i h
      simp only [decide_eq_true_eq] at h
      have hadj : is_adjacent (seq.getD i 0) (seq.getD (i + 1) 0) = false := by
        rw [← Bool.not_eq_true, is_adjacent_iff]
        rintro (h1 | h6)
        · exact h.1 h1
        · exact h.2 h6
      simp only [hadj, Bool.false_eq_true, if_false, MODULUS]
  · show ((validate_sequence seq).2.length == 0) = true ↔ (validate_sequence seq).2 = []
    simp [List.length_eq_zero]

/-- Payload of Python `Dict[str, Any]` fields (`metadata`); the values are
opaque to every operation modelled here, so they are embedded as string maps. -/
def Metadata : Type := List (String × String)

instance : DecidableEq Metadata := by
  unfold Metadata
  infer_instance

/-- Python `Dict[str, float]` (`cost_metrics`), floats as exact rationals. -/
def CostMetrics : Type := List (String × ℚ)

instance : DecidableEq CostMetrics := by
  unfold CostMetrics
  infer_instance

/-- `gray_event.EntropyMetrics`: four optional floats. -/
structure EntropyMetrics where
  compression_ratio : Option ℚ
  entropy_estimate : Option ℚ
  ncd_score : Option ℚ
  degeneracy_threshold : Option ℚ
  deriving Repr, DecidableEq

/-- `gray_event.EventContext`: four optional fields. -/
structure EventContext where
  sequence_length : Option Nat
  window : Option (List Int)
  file : Option String
  line : Option Nat
  deriving Repr, DecidableEq

/-- `gray_event.GrayEvent.VALID_TYPES`. -/
def VALID_TYPES : List String :=
  ["adjacency_violation", "degeneracy_detected", "unknown_token",
   "entropy_plateau", "mimic_loop"]

/-- `gray_event.GrayEvent.VALID_SEVERITIES`. -/
def VALID_SEVERITIES : List String := ["warning", "error", "critical"]

/-- `gray_event.GrayEvent`: the in-memory dataclass.  The index is an `Int`
because Python accepts any integer argument and only `__post_init__`
rejects the negative ones. -/
structure GrayEvent where
  type : String
  index : Int
  timestamp : String
  from_color : Option Int
  to_color : Option Int
  delta : Option Int
  reason : String
  severity : String
  entropy_metrics : Option EntropyMetrics
  context : Option EventContext
  metadata : Option Metadata
  deriving DecidableEq

/-- `GrayEvent(...)` construction: the dataclass `__init__` immediately runs
`__post_init__`, which raises `ValueError` on an invalid type, an invalid
severity, or a negative index.  The wall-clock default timestamp is passed
explicitly. -/
def GrayEvent.create (type : String) (index : Int) (timestamp : String)
    (from_color to_color delta : Option Int) (reason : String) (severity : String)
    (entropy_metrics : Option EntropyMetrics) (context : Option EventContext)
    (metadata : Option Metadata) : Except String GrayEvent :=
  if ¬ VALID_TYPES.contains type then
    Except.error s!"Invalid Gray event type: {type}"
  else if ¬ VALID_SEVERITIES.contains severity then
    Except.error s!"Invalid severity: {severity}"
  else if index < 0 then
    Except.error s!"Index must be non-negative, got {index}"
  else
    Except.ok ⟨type, index, timestamp, from_color, to_color, delta, reason, severity,
      entropy_metrics, context, metadata⟩

/-- `GrayEvent.to_dict`: the sparse wire form.  Required keys are plain
fields; optional keys are `Option` fields (`none` = key omitted).  The
`entropy_metrics`/`context` sub-dicts keep their own option fields, matching
their `to_dict` methods, which drop `None` entries. -/
structure GrayEventDict where
  type : String
  index : Int
  timestamp : String
  reason : String
  severity : String
  from_color : Option Int
  to_color : Option Int
  delta : Option Int
  entropy_metrics : Option EntropyMetrics
  context : Option EventContext
  metadata : Option Metadata
  deriving DecidableEq

/-- `GrayEvent.to_dict`. -/
def GrayEvent.to_dict (e : GrayEvent) : GrayEventDict :=
  ⟨e.type, e.index, e.timestamp, e.reason, e.severity, e.from_color, e.to_color,
   e.delta, e.entropy_metrics, e.context, e.metadata⟩

/-- `GrayEvent.adjacency_violation` classmethod: computes the delta and
delegates to checked construction (severity defaults to `"error"`). -/
def GrayEvent.adjacency_violation (now : String) (index from_color to_color : Int)
    (modulus : Int) : Except String GrayEvent :=
  let delta := (to_color - from_color) % modulus
  GrayEvent.create "adjacency_violation" index now (some from_color) (some to_color)
    (some delta) (s!"Illegal jump: delta {delta} not in [1, 6]") "error" none none none

/-- C5: `GrayEvent` construction succeeds iff the type is one of the five
valid kinds, the severity is one of the three valid severities, and the
index is non-negative; otherwise it raises and never silently coerces. -/
theorem claim_C5_gray_event_construction (type : String) (index : Int)
    (timestamp : String) (from_color to_color delta : Option Int) (reason : String)
    (severity : String) (entropy_metrics : Option EntropyMetrics)
    (context : Option EventContext) (metadata : Option Metadata) :
    (∃ e, GrayEvent.create type index timestamp from_color to_color delta reason
        severity entropy_metrics context metadata = Except.ok e) ↔
      (type ∈ VALID_TYPES ∧ severity ∈ VALID_SEVERITIES ∧ 0 ≤ index) := by
  unfold GrayEvent.create
  by_cases ht : type ∈ VALID_TYPES
  · by_cases hs : severity ∈ VALID_SEVERITIES
    · by_cases hi : index < 0
      · simp [ht, hs, hi]
      · simp [ht, hs, hi]
        omega
    · simp [ht, hs]
  · simp [ht]

/-- `trace.StepTrace`: one step of the execution trace. -/
structure StepTrace where
  step_number : Nat
  timestamp : String
  input_state : Int
  operator : String
  output_state : Int
  is_legal : Bool
  delta : Int
  cost_metrics : Option CostMetrics
  metadata : Option Metadata
  gray_event : Option GrayEventDict
  deriving DecidableEq

/-- `StepTrace.to_dict`: wire form of a step; the three optional keys are
popped when `None`, so they stay `Option` fields in the dict. -/
structure StepDict where
  step_number : Nat
  timestamp : String
  input_state : Int
  operator : String
  output_state : Int
  is_legal : Bool
  delta : Int
  cost_metrics : Option CostMetrics
  metadata : Option Metadata
  gray_event : Option GrayEventDict
  deriving DecidableEq

/-- `StepTrace.to_dict`. -/
def StepTrace.to_dict (s : StepTrace) : StepDict :=
  ⟨s.step_number, s.timestamp, s.input_state, s.operator, s.output_state,
   s.is_legal, s.delta, s.cost_metrics, s.metadata, s.gray_event⟩

/-- `StepTrace(**step_data)` in `ExecutionTrace.load`: absent optional keys
fall back to the dataclass defaults (`None`). -/
def StepTrace.of_dict (d : StepDict) : StepTrace :=
  ⟨d.step_number, d.timestamp, d.input_state, d.operator, d.output_state,
   d.is_legal, d.delta, d.cost_metrics, d.metadata, d.gray_event⟩

/-- `trace.ExecutionTrace`: the running counters are `Nat` because they start
at 0 and are only ever incremented. -/
structure ExecutionTrace where
  trace_id : String
  start_time : String
  steps : List StepTrace
  total_steps : Nat
  legal_steps : Nat
  illegal_steps : Nat
  gray_events : List GrayEventDict
  deriving DecidableEq

/-- `trace.create_trace`: fresh trace, empty log, zero counters (identity and
clock strings are passed explicitly). -/
def create_trace (trace_id : String) (start_time : String) : ExecutionTrace :=
  ⟨trace_id, start_time, [], 0, 0, 0, []⟩

/-- `ExecutionTrace.add_step`: classify the single transition with
`is_adjacent`, compute the delta mod 7, synthesize and store an
`adjacency_violation` Gray Event when illegal (its index is the step count
before the increment), bump the matching counter, append the step and bump
`total_steps`.  The wall clock is passed in as `now`; `Except` mirrors the
`ValueError` that `GrayEvent` construction could raise. -/
def ExecutionTrace.add_step (tr : ExecutionTrace) (input_state : Int)
    (op : String) (output_state : Int) (now : String)
    (cost_metrics : Option CostMetrics) (metadata : Option Metadata) :
    Except String (ExecutionTrace × StepTrace) := do
  let legal := is_adjacent input_state output_state
  let delta := (output_state - input_state) % 7
  let gray_event : Option GrayEventDict ←
    if legal then pure none
    else do
      let event ← GrayEvent.adjacency_violation now (tr.total_steps : Int)
        input_state output_state 7
      pure (some event.to_dict)
  let step : StepTrace :=
    ⟨tr.total_steps, now, input_state, op, output_state, legal, delta,
     cost_metrics, metadata, gray_event⟩
  let tr1 : ExecutionTrace :=
    { tr with
      steps := tr.steps ++ [step]
      total_steps := tr.total_steps + 1
      legal_steps := if legal then tr.legal_steps + 1 else tr.legal_steps
      illegal_steps := if legal then tr.illegal_steps else tr.illegal_steps + 1
      gray_events :=
        match gray_event with
        | some d => tr.gray_events ++ [d]
        | none => tr.gray_events }
  pure (tr1, step)

/-- `ExecutionTrace.to_dict`: the persisted trace document. -/
structure TraceDict where
  trace_id : String
  start_time : String
  total_steps : Nat
  legal_steps : Nat
  illegal_steps : Nat
  gray_events : List GrayEventDict
  steps : List StepDict
  deriving DecidableEq

/-- `ExecutionTrace.to_dict`. -/
def ExecutionTrace.to_dict (tr : ExecutionTrace) : TraceDict :=
  ⟨tr.trace_id, tr.start_time, tr.total_steps, tr.legal_steps, tr.illegal_steps,
   tr.gray_events, tr.steps.map StepTrace.to_dict⟩

/-- `ExecutionTrace.load`: rebuild the trace from the document, re-creating
each step with `StepTrace(**step_data)`; counters and the Gray Event list are
taken from the document verbatim. -/
def ExecutionTrace.load (d : TraceDict) : ExecutionTrace :=
  ⟨d.trace_id, d.start_time, d.steps.map StepTrace.of_dict, d.total_steps,
   d.legal_steps, d.illegal_steps, d.gray_events⟩

/-- The arguments of one `add_step` call (the clock value included). -/
structure StepRequest where
  input_state : Int
  operator : String
  output_state : Int
  timestamp : String
  cost_metrics : Option CostMetrics
  metadata : Option Metadata
  deriving DecidableEq

/-- A finite sequence of `add_step` calls, in order. -/
def runSteps (tr : ExecutionTrace) : List StepRequest → Except String ExecutionTrace
  | [] => Except.ok tr
  | r :: rs => do
    let p ← tr.add_step r.input_state r.operator r.output_state r.timestamp
      r.cost_metrics r.metadata
    runSteps p.1 rs

lemma adjacency_violation_ok (now : String) (n : Nat) (a b m : Int) :
    GrayEvent.adjacency_violation now (n : Int) a b m =
      Except.ok ⟨"adjacency_violation", (n : Int), now, some a, some b,
        some ((b - a) % m), s!"Illegal jump: delta {(b - a) % m} not in [1, 6]",
        "error", none, none, none⟩ := by
  unfold GrayEvent.adjacency_violation GrayEvent.create
  norm_num [VALID_TYPES, VALID_SEVERITIES]

/-- The explicit result of a successful `add_step`. -/
lemma add_step_eq (tr : ExecutionTrace) (a : Int) (op : String) (b : Int)
    (now : String) (cm : Option CostMetrics) (md : Option Metadata) :
    ∃ ge : Option GrayEventDict,
      tr.add_step a op b now cm md =
        Except.ok
          ({ tr with
             steps := tr.steps ++
               [⟨tr.total_steps, now, a, op, b, is_adjacent a b,
                 (b - a) % 7, cm, md, ge⟩]
             total_steps := tr.total_steps + 1
             legal_steps := if is_adjacent a b then tr.legal_steps + 1 else tr.legal_steps
             illegal_steps := if is_adjacent a b then tr.illegal_steps else tr.illegal_steps + 1
             gray_events :=
               match ge with
               | some d => tr.gray_events ++ [d]
               | none => tr.gray_events },
           ⟨tr.total_steps, now, a, op, b, is_adjacent a b, (b - a) % 7, cm, md, ge⟩) ∧
      (is_adjacent a b = true → ge = none) ∧
      (is_adjacent a b = false →
        ge = some ⟨"adjacency_violation", (tr.total_steps : Int), now,
          s!"Illegal jump: delta {(b - a) % 7} not in [1, 6]",
          "error", some a, some b, some ((b - a) % 7), none, none, none⟩) := by
  by_cases hleg : is_adjacent a b = true
  · refine ⟨none, ?_, fun _ => rfl, ?_⟩
    · simp [ExecutionTrace.add_step, hleg, bind, Except.bind, pure, Except.pure]
    · intro h
      rw [h] at hleg
      simp at hleg
  · rw [Bool.not_eq_true] at hleg
    refine ⟨some ⟨"adjacency_violation", (tr.total_steps : Int), now,
      s!"Illegal jump: delta {(b - a) % 7} not in [1, 6]",
      "error", some a, some b, some ((b - a) % 7), none, none, none⟩, ?_, ?_, fun _ => rfl⟩
    · simp [ExecutionTrace.add_step, hleg, adjacency_violation_ok, GrayEvent.to_dict,
        bind, Except.bind, pure, Except.pure]
    · intro h
      rw [h] at hleg
      simp at hleg

/-- C6: each `add_step` call appends a step whose legality is the adjacency
rule on `(input_state, output_state)` and whose delta is
`(output_state - input_state) mod 7`; `total_steps` grows by one; on a legal
step `legal_steps` grows by one and the Gray Event list is untouched; on an
illegal step `illegal_steps` grows by one and exactly one
`adjacency_violation` Gray Event is stored, indexed by the step count before
the increment. -/
theorem claim_C6_add_step (tr : ExecutionTrace) (a : Int) (op : String) (b : Int)
    (now : String) (cm : Option CostMetrics) (md : Option Metadata) :
    ∃ tr1 step, tr.add_step a op b now cm md = Except.ok (tr1, step) ∧
      step.is_legal = is_adjacent a b ∧
      step.delta = (b - a) % 7 ∧
      tr1.total_steps = tr.total_steps + 1 ∧
      (if is_adjacent a b = true then
        tr1.legal_steps = tr.legal_steps + 1 ∧
        tr1.illegal_steps = tr.illegal_steps ∧
        tr1.gray_events = tr.gray_events
      else
        tr1.illegal_steps = tr.illegal_steps + 1 ∧
        tr1.legal_steps = tr.legal_steps ∧
        ∃ d, tr1.gray_events = tr.gray_events ++ [d] ∧ step.gray_event = some d ∧
          d.type = "adjacency_violation" ∧ d.index = (tr.total_steps : Int)) := by
  obtain ⟨ge, heq, hlegal, hillegal⟩ := add_step_eq tr a op b now cm md
  refine ⟨_, _, heq, rfl, rfl, rfl, ?_⟩
  by_cases h : is_adjacent a b = true
  · rw [if_pos h]
    rw [hlegal h]
    simp [h]
  · rw [if_neg h]
    rw [Bool.not_eq_true] at h
    rw [hillegal h]
    refine ⟨by simp [h], by simp [h], _, by simp, rfl, rfl, rfl⟩

/-- The bookkeeping invariant of an `ExecutionTrace`. -/
def TraceInv (tr : ExecutionTrace) : Prop :=
  tr.total_steps = tr.legal_steps + tr.illegal_steps ∧
  tr.total_steps = tr.steps.length ∧
  tr.gray_events.length = tr.illegal_steps ∧
  tr.steps.map StepTrace.step_number = List.range tr.steps.length

lemma add_step_inv (tr : ExecutionTrace) (a : Int) (op : String) (b : Int)
    (now : String) (cm : Option CostMetrics) (md : Option Metadata)
    (hInv : TraceInv tr) :
    ∀ tr1 step, tr.add_step a op b now cm md = Except.ok (tr1, step) → TraceInv tr1 := by
  obtain ⟨ge, heq, hlegal, hillegal⟩ := add_step_eq tr a op b now cm md
  intro tr1 step h
  rw [heq] at h
  obtain ⟨h1, _⟩ := Prod.mk.injEq .. ▸ Except.ok.inj h
  subst h1
  obtain ⟨i1, i2, i3, i4⟩ := hInv
  by_cases hadj : is_adjacent a b = true
  · rw [hlegal hadj] at *
    refine ⟨by simp [hadj]; omega, by simp [i2], by simp [hadj, i3], ?_⟩
    simp only [List.map_append, List.length_append, List.map_cons, List.map_nil]
    rw [i4, i2, List.length_singleton, List.range_succ]
  · rw [Bool.not_eq_true] at hadj
    rw [hillegal hadj] at *
    refine ⟨by simp [hadj]; omega, by simp [i2], by simp [hadj, i3], ?_⟩
    simp only [List.map_append, List.length_append, List.map_cons, List.map_nil]
    rw [i4, i2, List.length_singleton, List.range_succ]

lemma runSteps_ok_inv :
    ∀ (reqs : List StepRequest) (tr : ExecutionTrace), TraceInv tr →
      ∃ tr1, runSteps tr reqs = Except.ok tr1 ∧ TraceInv tr1 := by
  intro reqs
  induction reqs with
  | nil => exact fun tr h => ⟨tr, rfl, h⟩
  | cons r rs ih =>
    intro tr hInv
    obtain ⟨ge, heq, _, _⟩ :=
      add_step_eq tr r.input_state r.operator r.output_state r.timestamp
        r.cost_metrics r.metadata
    have hnext := add_step_inv tr r.input_state r.operator r.output_state
      r.timestamp r.cost_metrics r.metadata hInv _ _ heq
    obtain ⟨tr1, hrun, hInv1⟩ := ih _ hnext
    refine ⟨tr1, ?_, hInv1⟩
    rw [runSteps, heq]
    exact hrun

lemma create_trace_inv (trace_id start_time : String) :
    TraceInv (create_trace trace_id start_time) := by
  refine ⟨rfl, rfl, rfl, rfl⟩

/-- C9: any trace built from `create_trace` by a finite sequence of
`add_step` calls satisfies `total_steps = legal_steps + illegal_steps =
len(steps)`, stores exactly one Gray Event per illegal step, and numbers its
steps by their positions. -/
theorem claim_C9_trace_invariant (trace_id start_time : String)
    (reqs : List StepRequest) :
    ∃ tr, runSteps (create_trace trace_id start_time) reqs = Except.ok tr ∧
      tr.total_steps = tr.legal_steps + tr.illegal_steps ∧
      tr.total_steps = tr.steps.length ∧
      tr.gray_events.length = tr.illegal_steps ∧
      tr.steps.map StepTrace.step_number = List.range tr.steps.length := by
  obtain ⟨tr, hrun, h1, h2, h3, h4⟩ :=
    runSteps_ok_inv reqs (create_trace trace_id start_time)
      (create_trace_inv trace_id start_time)
  exact ⟨tr, hrun, h1, h2, h3, h4⟩

lemma of_dict_to_dict (s : StepTrace) : StepTrace.of_dict s.to_dict = s := rfl

lemma load_to_dict (tr : ExecutionTrace) : ExecutionTrace.load tr.to_dict = tr := by
  have h : StepTrace.of_dict ∘ StepTrace.to_dict = id := funext of_dict_to_dict
  simp [ExecutionTrace.load, ExecutionTrace.to_dict, List.map_map, h]

/-- C4: serializing any trace built by `add_step` calls with `to_dict` and
reconstructing it with `load` yields back the very same trace — identical
counters, identical Gray Event list, and step-for-step identical content. -/
theorem claim_C4_trace_round_trip (trace_id start_time : String)
    (reqs : List StepRequest) :
    ∃ tr, runSteps (create_trace trace_id start_time) reqs = Except.ok tr ∧
      ExecutionTrace.load tr.to_dict = tr := by
  obtain ⟨tr, hrun, _⟩ :=
    runSteps_ok_inv reqs (create_trace trace_id start_time)
      (create_trace_inv trace_id start_time)
  exact ⟨tr, hrun, load_to_dict tr⟩

/-- `metrics.ncd`: Normalized Compression Distance
`(C(x ++ y) - min(C x, C y)) / max(C x, C y)`, parametrised by the
compressed-size function `C` (`len(zlib.compress(.))` in the source); the
numerator is an integer because Python subtraction may go negative. -/
def ncd (C : List Nat → Nat) (x y : List Nat) : ℚ :=
  let c_x := C x
  let c_y := C y
  let c_xy := C (x ++ y)
  let numerator : Int := (c_xy : Int) - (min c_x c_y : Nat)
  let denominator := max c_x c_y
  if denominator = 0 then 0 else (numerator : ℚ) / (denominator : ℚ)

/-- `metrics.entropy_estimate`: 0.0 on empty input, otherwise the ratio
`compressed / original`. -/
def entropy_estimate (C : List Nat → Nat) (data : List Nat) : ℚ :=
  if data.length = 0 then 0
  else
    let compressed := C data
    let original := data.length
    (compressed : ℚ) / (original : ℚ)

/-- `metrics.compression_ratio`: 0.0 on empty input, otherwise
`compress_size(data) / len(data)`. -/
def compression_ratio (C : List Nat → Nat) (data : List Nat) : ℚ :=
  if data.length = 0 then 0 else ((C data : ℚ) / (data.length : ℚ))

/-- `metrics.DEGENERACY_COMPRESSION_THRESHOLD = 0.30` (floats as exact ℚ). -/
def DEGENERACY_COMPRESSION_THRESHOLD : ℚ := 3 / 10

/-- `metrics.DEGENERACY_ENTROPY_THRESHOLD = 0.50`. -/
def DEGENERACY_ENTROPY_THRESHOLD : ℚ := 1 / 2

/-- `metrics.DEGENERACY_NCD_THRESHOLD = 0.15`. -/
def DEGENERACY_NCD_THRESHOLD : ℚ := 3 / 20

/-- `metrics.DEGENERACY_PLATEAU_WINDOW_COUNT = 3`. -/
def DEGENERACY_PLATEAU_WINDOW_COUNT : Nat := 3

/-- `metrics.sequence_to_bytes`: one byte per index (`bytes(sequence)`). -/
def sequence_to_bytes (sequence : List Nat) : List Nat := sequence

/-- `metrics.analyze_windows`: sliding windows with 50% overlap plus the NCD
of each consecutive window pair.  `count` is the length of Python
`range(0, len(data) - window_size + 1, step)`.  (For `window_size ≤ 1` the
Python `range` with step 0 would raise; every use below fixes the default
`window_size = 50`, where `step = 25`.) -/
def analyze_windows (C : List Nat → Nat) (data : List Nat) (window_size : Nat) :
    List (List Nat) × List ℚ :=
  if data.length < window_size * 2 then ([data], [])
  else
    let step := window_size / 2
    let count := (data.length - window_size + 1 + step - 1) / step
    let windows := (List.range count).map fun j => (data.drop (j * step)).take window_size
    let ncds := (windows.zip windows.tail).map fun p => ncd C p.1 p.2
    (windows, ncds)

/-- The running-count loop of `metrics.detect_entropy_plateau`: walk the NCD
scores keeping a count of the current streak of scores below the threshold,
returning `True` as soon as the streak reaches `min_consecutive`. -/
def plateauGo (threshold : ℚ) (min_consecutive : Nat) : List ℚ → Nat → Bool
  | [], _ => false
  | n :: rest, cnt =>
    if n < threshold then
      if min_consecutive ≤ cnt + 1 then true
      else plateauGo threshold min_consecutive rest (cnt + 1)
    else plateauGo threshold min_consecutive rest 0

/-- `metrics.detect_entropy_plateau`. -/
def detect_entropy_plateau (ncds : List ℚ) (threshold : ℚ)
    (min_consecutive : Nat) : Bool :=
  if ncds.length < min_consecutive then false
  else plateauGo threshold min_consecutive ncds 0

/-- Which condition populated `trigger_reason`; each constructor stands for
the corresponding f-string template of `detect_degeneracy`. -/
inductive TriggerReason where
  | highCompressibility
  | lowEntropy
  | entropyPlateau
  deriving Repr, DecidableEq

/-- `metrics.DegeneracyMetrics`. -/
structure DegeneracyMetrics where
  is_degenerate : Bool
  compression_ratio : ℚ
  entropy_estimate : ℚ
  window_ncds : List ℚ
  plateau_detected : Bool
  trigger_reason : Option TriggerReason
  window_size : Nat
  num_windows : Nat
  deriving DecidableEq

/-- `metrics.detect_degeneracy`: empty input short-circuits to the default
metrics; otherwise compute the global ratio and entropy, the windowed NCDs
and the plateau flag, then run the `if/elif/elif` verdict chain, whose first
triggering condition fixes `trigger_reason`. -/
def detect_degeneracy (C : List Nat → Nat) (sequence : List Nat)
    (window_size : Nat) (compression_threshold entropy_threshold ncd_threshold : ℚ) :
    DegeneracyMetrics :=
  if sequence.length = 0 then
    ⟨false, 0, 0, [], false, none, window_size, 0⟩
  else
    let data := sequence_to_bytes sequence
    let comp_ratio := compression_ratio C data
    let entropy := entropy_estimate C data
    let wn := analyze_windows C data window_size
    let plateau := detect_entropy_plateau wn.2 ncd_threshold DEGENERACY_PLATEAU_WINDOW_COUNT
    let verdict : Bool × Option TriggerReason :=
      if comp_ratio < compression_threshold then
        (true, some TriggerReason.highCompressibility)
      else if entropy < entropy_threshold then
        (true, some TriggerReason.lowEntropy)
      else if plateau then
        (true, some TriggerReason.entropyPlateau)
      else (false, none)
    ⟨verdict.1, comp_ratio, entropy, wn.2, plateau, verdict.2, window_size, wn.1.length⟩

lemma entropy_estimate_eq_compression_ratio (C : List Nat → Nat) (data : List Nat) :
    entropy_estimate C data = compression_ratio C data := rfl

/-- C8: the entropy estimate is the compression ratio itself — both are 0.0
on empty input and `compress_size(data) / len(data)` otherwise; no separate
symbol-frequency computation takes place. -/
theorem claim_C8_entropy_is_ratio (C : List Nat → Nat) (data : List Nat) :
    entropy_estimate C data = compression_ratio C data ∧
    entropy_estimate C [] = 0 ∧
    compression_ratio C [] = 0 ∧
    (data ≠ [] → compression_ratio C data = (C data : ℚ) / (data.length : ℚ)) := by
  refine ⟨entropy_estimate_eq_compression_ratio C data, rfl, rfl, fun h => ?_⟩
  unfold compression_ratio
  rw [if_neg (by simpa [List.length_eq_zero] using h)]

/-- Witness for C8 at a concrete compressor and input. -/
theorem claim_C8_entropy_is_ratio_witness :
    compression_ratio (fun d => d.length) [3, 3] =
      (((fun d : List Nat => d.length) ([3, 3] : List Nat) : Nat) : ℚ) /
        ((([3, 3] : List Nat).length : Nat) : ℚ) :=
  (claim_C8_entropy_is_ratio (fun d => d.length) [3, 3]).2.2.2 (by decide)

/-- Invariant of the streak-counting loop: with `cnt < k` streak credit
already accumulated, the loop succeeds iff either a prefix run completes the
current streak, or a full run of length `k` occurs somewhere in the rest. -/
lemma plateauGo_iff (t : ℚ) (k : Nat) :
    ∀ (l : List ℚ) (cnt : Nat), cnt < k →
      (plateauGo t k l cnt = true ↔
        (∃ m, m ≤ l.length ∧ k ≤ cnt + m ∧ ∀ x ∈ l.take m, x < t) ∨
        (∃ seg : List ℚ, seg.IsInfix l ∧ seg.length = k ∧ ∀ x ∈ seg, x < t)) := by
  intro l
  induction l with
  | nil =>
    intro cnt hcnt
    simp only [plateauGo]
    constructor
    · intro h
      exact absurd h (by simp)
    · rintro (⟨m, hm, hk, -⟩ | ⟨seg, hinf, hlen, -⟩)
      · exfalso
        simp only [List.length_nil, Nat.le_zero] at hm
        omega
      · exfalso
        have hle := hinf.length_le
        simp only [List.length_nil, Nat.le_zero] at hle
        omega
  | cons n rest ih =>
    intro cnt hcnt
    by_cases hn : n < t
    · by_cases hk2 : k ≤ cnt + 1
      · simp only [plateauGo, if_pos hn, if_pos hk2]
        constructor
        · intro _
          left
          refine ⟨1, by simp, by omega, ?_⟩
          intro x hx
          simp only [List.take_succ_cons, List.take_zero, List.mem_singleton] at hx
          rw [hx]
          exact hn
        · intro _
          trivial
      · have hcnt1 : cnt + 1 < k := by omega
        simp only [plateauGo, if_pos hn, if_neg hk2]
        rw [ih (cnt + 1) hcnt1]
        constructor
        · rintro (⟨m, hm, hkm, hall⟩ | ⟨seg, hinf, hlen, hall⟩)
          · left
            refine ⟨m + 1, by simpa using hm, by omega, ?_⟩
            intro x hx
            rw [List.take_succ_cons] at hx
            rcases List.mem_cons.mp hx with h | h
            · rw [h]
              exact hn
            · exact hall x h
          · right
            exact ⟨seg, List.infix_cons hinf, hlen, hall⟩
        · rintro (⟨m, hm, hkm, hall⟩ | ⟨seg, hinf, hlen, hall⟩)
          · obtain ⟨m1, rfl⟩ : ∃ m1, m = m1 + 1 := ⟨m - 1, by omega⟩
            left
            refine ⟨m1, by simpa using hm, by omega, ?_⟩
            intro x hx
            refine hall x ?_
            rw [List.take_succ_cons]
            exact List.mem_cons_of_mem _ hx
          · obtain ⟨s, t2, hst⟩ := hinf
            cases s with
            | nil =>
              simp only [List.nil_append] at hst
              cases seg with
              | nil =>
                exfalso
                simp only [List.length_nil] at hlen
                omega
              | cons a seg1 =>
                rw [List.cons_append, List.cons.injEq] at hst
                obtain ⟨han, hrest⟩ := hst
                left
                refine ⟨seg1.length, ?_, ?_, ?_⟩
                · rw [← hrest, List.length_append]
                  omega
                · simp only [List.length_cons] at hlen
                  omega
                · intro x hx
                  rw [← hrest, List.take_left] at hx
                  exact hall x (List.mem_cons_of_mem _ hx)
            | cons a s1 =>
              simp only [List.cons_append] at hst
              injection hst with h1 h2
              right
              exact ⟨seg, ⟨s1, t2, h2⟩, hlen, hall⟩
    · simp only [plateauGo, if_neg hn]
      rw [ih 0 (by omega)]
      constructor
      · rintro (⟨m, hm, hkm, hall⟩ | ⟨seg, hinf, hlen, hall⟩)
        · right
          refine ⟨rest.take k, List.infix_cons ((List.take_prefix k rest).isInfix),
            ?_, ?_⟩
          · rw [List.length_take, Nat.min_eq_left (by omega : k ≤ rest.length)]
          · intro x hx
            apply hall
            have htt : rest.take k = (rest.take m).take k := by
              rw [List.take_take, Nat.min_eq_left (by omega : k ≤ m)]
            rw [htt] at hx
            exact List.take_subset _ _ hx
        · right
          exact ⟨seg, List.infix_cons hinf, hlen, hall⟩
      · rintro (⟨m, hm, hkm, hall⟩ | ⟨seg, hinf, hlen, hall⟩)
        · obtain ⟨m1, rfl⟩ : ∃ m1, m = m1 + 1 := ⟨m - 1, by omega⟩
          exfalso
          have hmem : n ∈ (n :: rest).take (m1 + 1) := by
            rw [List.take_succ_cons]
            exact List.mem_cons_self n _
          exact hn (hall n hmem)
        · obtain ⟨s, t2, hst⟩ := hinf
          cases s with
          | nil =>
            simp only [List.nil_append] at hst
            cases seg with
            | nil =>
              exfalso
              simp only [List.length_nil] at hlen
              omega
            | cons a seg1 =>
              exfalso
              rw [List.cons_append, List.cons.injEq] at hst
              have han : a = n := hst.1
              have : a < t := hall a (List.mem_cons_self a seg1)
              rw [han] at this
              exact hn this
          | cons a s1 =>
            simp only [List.cons_append] at hst
            injection hst with h1 h2
            right
            exact ⟨seg, ⟨s1, t2, h2⟩, hlen, hall⟩

/-- C7: plateau detection accepts exactly the NCD lists containing at least
`min_consecutive` consecutive scores all strictly below the threshold (a
contiguous run of length `min_consecutive`), and in particular rejects every
list shorter than `min_consecutive`. -/
theorem claim_C7_detect_entropy_plateau (ncds : List ℚ) (threshold : ℚ)
    (k : Nat) (hk : 1 ≤ k) :
    (detect_entropy_plateau ncds threshold k = true ↔
      ∃ seg : List ℚ, seg.IsInfix ncds ∧ seg.length = k ∧ ∀ x ∈ seg, x < threshold) ∧
    (ncds.length < k → detect_entropy_plateau ncds threshold k = false) := by
  constructor
  · unfold detect_entropy_plateau
    by_cases hlen : ncds.length < k
    · rw [if_pos hlen]
      constructor
      · intro h
        exact absurd h (by simp)
      · rintro ⟨seg, hinf, hlenk, -⟩
        exfalso
        have hle := hinf.length_le
        omega
    · rw [if_neg hlen]
      rw [plateauGo_iff threshold k ncds 0 (by omega)]
      constructor
      · rintro (⟨m, hm, hkm, hall⟩ | hB)
        · refine ⟨ncds.take k, (List.take_prefix k ncds).isInfix, ?_, ?_⟩
          · rw [List.length_take]
            omega
          · intro x hx
            apply hall
            have htt : ncds.take k = (ncds.take m).take k := by
              rw [List.take_take, Nat.min_eq_left (by omega : k ≤ m)]
            rw [htt] at hx
            exact List.take_subset _ _ hx
        · exact hB
      · intro h
        right
        exact h
  · intro hlen
    unfold detect_entropy_plateau
    rw [if_pos hlen]

/-- Witness for C7 at the default threshold 0.15 and run length 3. -/
theorem claim_C7_detect_entropy_plateau_witness :
    (detect_entropy_plateau [1/10, 1/10, 1/10] (3/20) 3 = true ↔
      ∃ seg : List ℚ, seg.IsInfix [1/10, 1/10, 1/10] ∧ seg.length = 3 ∧
        ∀ x ∈ seg, x < 3/20) ∧
    (([1/10, 1/10, 1/10] : List ℚ).length < 3 →
      detect_entropy_plateau [1/10, 1/10, 1/10] (3/20) 3 = false) :=
  claim_C7_detect_entropy_plateau [1/10, 1/10, 1/10] (3/20) 3 (by decide)

lemma detect_degeneracy_nonempty (C : List Nat → Nat) (seq : List Nat)
    (hne : seq ≠ []) (w : Nat) (ct et nt : ℚ) :
    detect_degeneracy C seq w ct et nt =
      ⟨if compression_ratio C (sequence_to_bytes seq) < ct then true
         else if entropy_estimate C (sequence_to_bytes seq) < et then true
         else if detect_entropy_plateau (analyze_windows C (sequence_to_bytes seq) w).2
             nt DEGENERACY_PLATEAU_WINDOW_COUNT then true
         else false,
       compression_ratio C (sequence_to_bytes seq),
       entropy_estimate C (sequence_to_bytes seq),
       (analyze_windows C (sequence_to_bytes seq) w).2,
       detect_entropy_plateau (analyze_windows C (sequence_to_bytes seq) w).2 nt
         DEGENERACY_PLATEAU_WINDOW_COUNT,
       if compression_ratio C (sequence_to_bytes seq) < ct then
         some TriggerReason.highCompressibility
        else if entropy_estimate C (sequence_to_bytes seq) < et then
         some TriggerReason.lowEntropy
        else if detect_entropy_plateau (analyze_windows C (sequence_to_bytes seq) w).2
            nt DEGENERACY_PLATEAU_WINDOW_COUNT then
         some TriggerReason.entropyPlateau
        else none,
       w,
       (analyze_windows C (sequence_to_bytes seq) w).1.length⟩ := by
  unfold detect_degeneracy
  rw [if_neg (by simpa [List.length_eq_zero] using hne)]
  by_cases h1 : compression_ratio C (sequence_to_bytes seq) < ct
  · simp [h1]
  · by_cases h2 : entropy_estimate C (sequence_to_bytes seq) < et
    · simp [h1, h2]
    · by_cases h3 : detect_entropy_plateau
        (analyze_windows C (sequence_to_bytes seq) w).2 nt
        DEGENERACY_PLATEAU_WINDOW_COUNT
      · simp [h1, h2, h3]
      · simp [h1, h2, h3]

/-- C2: with the default parameters, a non-empty sequence is flagged
degenerate iff compression ratio < 0.30 or entropy < 0.50 or a plateau was
detected; the conditions are tested in exactly that order and the first one
that fires fixes the single `trigger_reason` (`none` when not degenerate);
the ratio, the entropy, the per-window NCDs and the plateau flag are
returned regardless of the verdict. -/
theorem claim_C2_detect_degeneracy (C : List Nat → Nat) (seq : List Nat)
    (hne : seq ≠ []) (m : DegeneracyMetrics)
    (hm : m = detect_degeneracy C seq 50 DEGENERACY_COMPRESSION_THRESHOLD
      DEGENERACY_ENTROPY_THRESHOLD DEGENERACY_NCD_THRESHOLD) :
    (m.is_degenerate = true ↔
      (m.compression_ratio < DEGENERACY_COMPRESSION_THRESHOLD ∨
       m.entropy_estimate < DEGENERACY_ENTROPY_THRESHOLD ∨
       m.plateau_detected = true)) ∧
    m.trigger_reason =
      (if m.compression_ratio < DEGENERACY_COMPRESSION_THRESHOLD then
        some TriggerReason.highCompressibility
      else if m.entropy_estimate < DEGENERACY_ENTROPY_THRESHOLD then
        some TriggerReason.lowEntropy
      else if m.plateau_detected = true then some TriggerReason.entropyPlateau
      else none) ∧
    (m.is_degenerate = false → m.trigger_reason = none) ∧
    m.compression_ratio = compression_ratio C (sequence_to_bytes seq) ∧
    m.entropy_estimate = entropy_estimate C (sequence_to_bytes seq) ∧
    m.window_ncds = (analyze_windows C (sequence_to_bytes seq) 50).2 ∧
    m.plateau_detected = detect_entropy_plateau
      (analyze_windows C (sequence_to_bytes seq) 50).2 DEGENERACY_NCD_THRESHOLD
      DEGENERACY_PLATEAU_WINDOW_COUNT := by
  subst hm
  rw [detect_degeneracy_nonempty C seq hne 50 DEGENERACY_COMPRESSION_THRESHOLD
    DEGENERACY_ENTROPY_THRESHOLD DEGENERACY_NCD_THRESHOLD]
  refine ⟨?_, ?_, ?_, rfl, rfl, rfl, rfl⟩
  · split_ifs with h1 h2 h3 <;> simp [*]
  · split_ifs <;> rfl
  · split_ifs with h1 h2 h3 <;> simp

/-- A concrete compressed-size stand-in used by witnesses. -/
def lenC : List Nat → Nat := fun d => d.length

/-- The default-parameter metrics of the witness input `[0]`. -/
def C2mw : DegeneracyMetrics :=
  detect_degeneracy lenC [0] 50 DEGENERACY_COMPRESSION_THRESHOLD
    DEGENERACY_ENTROPY_THRESHOLD DEGENERACY_NCD_THRESHOLD

/-- Witness for C2 at a concrete compressor and input. -/
theorem claim_C2_detect_degeneracy_witness :
    (C2mw.is_degenerate = true ↔
      (C2mw.compression_ratio < DEGENERACY_COMPRESSION_THRESHOLD ∨
       C2mw.entropy_estimate < DEGENERACY_ENTROPY_THRESHOLD ∨
       C2mw.plateau_detected = true)) ∧
    C2mw.trigger_reason =
      (if C2mw.compression_ratio < DEGENERACY_COMPRESSION_THRESHOLD then
        some TriggerReason.highCompressibility
      else if C2mw.entropy_estimate < DEGENERACY_ENTROPY_THRESHOLD then
        some TriggerReason.lowEntropy
      else if C2mw.plateau_detected = true then some TriggerReason.entropyPlateau
      else none) ∧
    (C2mw.is_degenerate = false → C2mw.trigger_reason = none) ∧
    C2mw.compression_ratio = compression_ratio lenC (sequence_to_bytes [0]) ∧
    C2mw.entropy_estimate = entropy_estimate lenC (sequence_to_bytes [0]) ∧
    C2mw.window_ncds = (analyze_windows lenC (sequence_to_bytes [0]) 50).2 ∧
    C2mw.plateau_detected = detect_entropy_plateau
      (analyze_windows lenC (sequence_to_bytes [0]) 50).2 DEGENERACY_NCD_THRESHOLD
      DEGENERACY_PLATEAU_WINDOW_COUNT :=
  claim_C2_detect_degeneracy lenC [0] (by decide) C2mw rfl

/-- C10: with the defaults, because the entropy estimate *is* the compression
ratio and 0.30 < 0.50, the verdict on a non-empty sequence is equivalent to
`compression ratio < 0.50 ∨ plateau`, and dropping the dedicated
compression-ratio condition (keeping only the entropy and plateau branches)
yields the very same verdict — the compression branch only changes which
`trigger_reason` is reported. -/
theorem claim_C10_verdict_equivalence (C : List Nat → Nat) (seq : List Nat)
    (hne : seq ≠ []) :
    ((detect_degeneracy C seq 50 DEGENERACY_COMPRESSION_THRESHOLD
        DEGENERACY_ENTROPY_THRESHOLD DEGENERACY_NCD_THRESHOLD).is_degenerate = true ↔
      (compression_ratio C (sequence_to_bytes seq) < DEGENERACY_ENTROPY_THRESHOLD ∨
       detect_entropy_plateau (analyze_windows C (sequence_to_bytes seq) 50).2
         DEGENERACY_NCD_THRESHOLD DEGENERACY_PLATEAU_WINDOW_COUNT = true)) ∧
    (detect_degeneracy C seq 50 DEGENERACY_COMPRESSION_THRESHOLD
        DEGENERACY_ENTROPY_THRESHOLD DEGENERACY_NCD_THRESHOLD).is_degenerate =
      (if entropy_estimate C (sequence_to_bytes seq) < DEGENERACY_ENTROPY_THRESHOLD
        then true
       else if detect_entropy_plateau (analyze_windows C (sequence_to_bytes seq) 50).2
           DEGENERACY_NCD_THRESHOLD DEGENERACY_PLATEAU_WINDOW_COUNT then true
       else false) := by
  rw [detect_degeneracy_nonempty C seq hne 50 DEGENERACY_COMPRESSION_THRESHOLD
    DEGENERACY_ENTROPY_THRESHOLD DEGENERACY_NCD_THRESHOLD]
  have hee : entropy_estimate C (sequence_to_bytes seq) =
      compression_ratio C (sequence_to_bytes seq) :=
    entropy_estimate_eq_compression_ratio C (sequence_to_bytes seq)
  have hct : DEGENERACY_COMPRESSION_THRESHOLD ≤ DEGENERACY_ENTROPY_THRESHOLD := by
    unfold DEGENERACY_COMPRESSION_THRESHOLD DEGENERACY_ENTROPY_THRESHOLD
    norm_num
  constructor
  · dsimp only
    rw [hee]
    split_ifs with h1 h2 h3
    · exact ⟨fun _ => Or.inl (lt_of_lt_of_le h1 hct), fun _ => rfl⟩
    · exact ⟨fun _ => Or.inl h2, fun _ => rfl⟩
    · exact ⟨fun _ => Or.inr h3, fun _ => rfl⟩
    · constructor
      · intro h
        exact absurd h (by simp)
      · rintro (h | h)
        · exact absurd h h2
        · exact absurd h h3
  · dsimp only
    rw [hee]
    split_ifs <;> first | rfl | linarith

/-- Witness for C10 at a concrete compressor and input. -/
theorem claim_C10_verdict_equivalence_witness :
    ((detect_degeneracy lenC [0] 50 DEGENERACY_COMPRESSION_THRESHOLD
        DEGENERACY_ENTROPY_THRESHOLD DEGENERACY_NCD_THRESHOLD).is_degenerate = true ↔
      (compression_ratio lenC (sequence_to_bytes [0]) < DEGENERACY_ENTROPY_THRESHOLD ∨
       detect_entropy_plateau (analyze_windows lenC (sequence_to_bytes [0]) 50).2
         DEGENERACY_NCD_THRESHOLD DEGENERACY_PLATEAU_WINDOW_COUNT = true)) ∧
    (detect_degeneracy lenC [0] 50 DEGENERACY_COMPRESSION_THRESHOLD
        DEGENERACY_ENTROPY_THRESHOLD DEGENERACY_NCD_THRESHOLD).is_degenerate =
      (if entropy_estimate lenC (sequence_to_bytes [0]) < DEGENERACY_ENTROPY_THRESHOLD
        then true
       else if detect_entropy_plateau (analyze_windows lenC (sequence_to_bytes [0]) 50).2
           DEGENERACY_NCD_THRESHOLD DEGENERACY_PLATEAU_WINDOW_COUNT then true
       else false) :=
  claim_C10_verdict_equivalence lenC [0] (by decide)

end Magicks
